import Mathlib

/-!
Verification of the StreamJson incremental JSON parser (streamjson/main.py).

Shallow embedding conventions:
- characters are Unicode code points modelled as Nat (Python strings may carry
  lone surrogates, which Lean Char cannot, so Python strings are List Nat);
- Python exceptions are an explicit error component: every feed operation
  returns the mutated parser state together with Option PyErr, reflecting that
  mutations performed before a raise persist on the object;
- the behaviour of the standard-library calls the source makes
  (json.loads on string and atomic literals, json.dumps on keys,
  codecs.decode with the unicode-escape codec, re matching of the ESCAPED
  pattern) is embedded faithfully to those libraries.
-/

/-- Code points of a Lean string literal, used to write concrete inputs. -/
def str2cp (s : String) : List Nat := s.data.map Char.toNat

/-- Python exceptions that the parser code can raise. -/
inductive PyErr
  | runtimeStackEmpty
  | runtimeBracketMismatch
  | runtimeUnrecognized
  | runtimeInvalidState
  | assertionError
  | indexError
  | jsonDecodeError
  | unicodeDecodeError
  deriving DecidableEq, Repr

/-- A value sitting on the parser stack: Python mixes the container-marker
strings with decoded key strings and integer indices in one list. -/
inductive PyVal
  | str (s : List Nat)
  | int (n : Int)
  deriving DecidableEq, Repr

/-- Result of json.loads on the payload texts the parser decodes. -/
inductive JsonVal
  | str (s : List Nat)
  | int (n : Int)
  | bool (b : Bool)
  | null
  | pyFloat (raw : List Nat)
  deriving DecidableEq, Repr

/-- The two event kinds the engine emits (dataclasses ValuePiece and Value). -/
inductive Event
  | valuePiece (index_key : List Nat) (char : Nat)
  | value (index_key : List Nat) (v : JsonVal)
  deriving DecidableEq, Repr

/-- ParserState enum of the source. -/
inductive ParserState
  | OUTSIDE
  | KEY
  | ATOMIC_VALUE
  | STRING_VALUE
  | INVALID
  deriving DecidableEq, Repr

/-- is_atomic_value_char: membership in the string of chars 0-9truefalsenull. -/
def is_atomic_value_char (c : Nat) : Bool :=
  decide ((0x30 ≤ c ∧ c ≤ 0x39) ∨ c = 0x74 ∨ c = 0x72 ∨ c = 0x75 ∨ c = 0x65 ∨
    c = 0x66 ∨ c = 0x61 ∨ c = 0x6C ∨ c = 0x73 ∨ c = 0x6E)

/-- is_whitespace: membership in the string holding space, newline, tab, CR. -/
def is_whitespace (c : Nat) : Bool :=
  decide (c = 0x20 ∨ c = 0x0A ∨ c = 0x09 ∨ c = 0x0D)

/-- Hex digit test used by the ESCAPED regular expression and by json.loads. -/
def isHex (c : Nat) : Bool :=
  decide ((0x30 ≤ c ∧ c ≤ 0x39) ∨ (0x41 ≤ c ∧ c ≤ 0x46) ∨ (0x61 ≤ c ∧ c ≤ 0x66))

/-- Numeric value of a hex digit. -/
def hexVal (c : Nat) : Nat :=
  if c ≤ 0x39 then c - 0x30 else if c ≤ 0x46 then c - 0x37 else c - 0x57

/-- Value of four hex digits. -/
def hexVal4 (a b c d : Nat) : Nat :=
  hexVal a * 4096 + hexVal b * 256 + hexVal c * 16 + hexVal d

/-- Result alternatives of StreamJsonStringParser.get_escaped_char:
a decoded character, the string-ended signal (True), or need-more (False). -/
inductive EscResult
  | needMore
  | stringEnded
  | decoded (c : Nat)
  deriving DecidableEq, Repr

/-- The ESCAPED regular expression match at the start of the buffer, combined
with the unicode-escape decode of the matched span: returns none when the
pattern does not match, otherwise the decoded code point (or the
UnicodeDecodeError that codecs.decode raises for a code point above 0x10FFFF,
which only the backslash-U form can produce) together with the buffer rest. -/
def escMatchDecode : List Nat → Option (Except PyErr Nat × List Nat)
  | c0 :: c1 :: rest =>
    if c0 ≠ 0x5C then none
    else if c1 = 0x6E then some (.ok 0x0A, rest)
    else if c1 = 0x74 then some (.ok 0x09, rest)
    else if c1 = 0x72 then some (.ok 0x0D, rest)
    else if c1 = 0x5C then some (.ok 0x5C, rest)
    else if c1 = 0x22 then some (.ok 0x22, rest)
    else if c1 = 0x78 then
      match rest with
      | a :: b :: r =>
        if isHex a && isHex b then some (.ok (hexVal a * 16 + hexVal b), r)
        else none
      | _ => none
    else if c1 = 0x75 then
      match rest with
      | a :: b :: c :: d :: r =>
        if isHex a && isHex b && isHex c && isHex d then
          some (.ok (hexVal4 a b c d), r)
        else none
      | _ => none
    else if c1 = 0x55 then
      match rest with
      | a :: b :: c :: d :: a2 :: b2 :: c2 :: d2 :: r =>
        if isHex a && isHex b && isHex c && isHex d &&
           isHex a2 && isHex b2 && isHex c2 && isHex d2 then
          some (if hexVal4 a b c d * 65536 + hexVal4 a2 b2 c2 d2 ≤ 0x10FFFF then
                  .ok (hexVal4 a b c d * 65536 + hexVal4 a2 b2 c2 d2)
                else .error .unicodeDecodeError, r)
        else none
      | _ => none
    else none
  | _ => none

/-- StreamJsonStringParser.get_escaped_char on the remains buffer. Returns the
result together with the new remains buffer (Python mutates self.remains). -/
def get_escaped_char : List Nat → Except PyErr (EscResult × List Nat)
  | [] => .ok (.needMore, [])
  | c :: rest =>
    if c = 0x22 then .ok (.stringEnded, c :: rest)
    else if c ≠ 0x5C then .ok (.decoded c, rest)
    else
      match escMatchDecode (c :: rest) with
      | some (.ok ch, rest1) => .ok (.decoded ch, rest1)
      | some (.error e, _) => .error e
      | none =>
        match rest with
        | [] => .ok (.needMore, c :: rest)
        | r :: rest2 =>
          if r = 0x78 ∨ r = 0x75 ∨ r = 0x55 ∨ r = 0x5C ∨ r = 0x22 then
            .ok (.needMore, c :: rest)
          else .ok (.decoded r, rest2)

/-- Simple JSON string escapes accepted by json.loads. -/
def jsonSimpleEsc (e : Nat) : Option Nat :=
  if e = 0x22 then some 0x22
  else if e = 0x5C then some 0x5C
  else if e = 0x2F then some 0x2F
  else if e = 0x62 then some 0x08
  else if e = 0x66 then some 0x0C
  else if e = 0x6E then some 0x0A
  else if e = 0x72 then some 0x0D
  else if e = 0x74 then some 0x09
  else none

/-- Cons a decoded character onto a string-scan result. -/
def consScan (c : Nat) (r : Except PyErr (List Nat × List Nat)) :
    Except PyErr (List Nat × List Nat) :=
  match r with
  | .ok (s, rest) => .ok (c :: s, rest)
  | .error e => .error e

/-- json.loads string scanning, beginning after the opening quote: decoded
characters plus the input following the closing quote. Mirrors CPython
py_scanstring: strict rejection of raw control characters, the eight simple
escapes, backslash-u escapes with surrogate-pair combination, errors for
anything else. The first argument carries a decoded high surrogate whose
pair lookahead is still owed; CPython performs that lookahead immediately
after decoding the high escape, and passing it along keeps the recursion
structural. -/
def scanCore : Option Nat → List Nat → Except PyErr (List Nat × List Nat)
  | _, [] => .error .jsonDecodeError
  | pend, c :: rest =>
    if c = 0x22 then
      match pend with
      | some x => .ok ([x], rest)
      | none => .ok ([], rest)
    else if c = 0x5C then
      match rest with
      | [] => .error .jsonDecodeError
      | e :: rest2 =>
        if e = 0x75 then
          match rest2 with
          | h1 :: h2 :: h3 :: h4 :: rest3 =>
            if isHex h1 && isHex h2 && isHex h3 && isHex h4 then
              match pend with
              | some x =>
                if 0xDC00 ≤ hexVal4 h1 h2 h3 h4 ∧ hexVal4 h1 h2 h3 h4 ≤ 0xDFFF then
                  consScan (0x10000 + (x - 0xD800) * 1024 +
                      (hexVal4 h1 h2 h3 h4 - 0xDC00))
                    (scanCore none rest3)
                else if 0xD800 ≤ hexVal4 h1 h2 h3 h4 ∧
                    hexVal4 h1 h2 h3 h4 ≤ 0xDBFF then
                  consScan x (scanCore (some (hexVal4 h1 h2 h3 h4)) rest3)
                else
                  consScan x (consScan (hexVal4 h1 h2 h3 h4) (scanCore none rest3))
              | none =>
                if 0xD800 ≤ hexVal4 h1 h2 h3 h4 ∧ hexVal4 h1 h2 h3 h4 ≤ 0xDBFF then
                  scanCore (some (hexVal4 h1 h2 h3 h4)) rest3
                else consScan (hexVal4 h1 h2 h3 h4) (scanCore none rest3)
            else .error .jsonDecodeError
          | _ => .error .jsonDecodeError
        else
          match pend, jsonSimpleEsc e with
          | _, none => .error .jsonDecodeError
          | some x, some v => consScan x (consScan v (scanCore none rest2))
          | none, some v => consScan v (scanCore none rest2)
    else if c < 0x20 then .error .jsonDecodeError
    else
      match pend with
      | some x => consScan x (consScan c (scanCore none rest))
      | none => consScan c (scanCore none rest)
  termination_by structural _ l => l

/-- json.loads string scanning from the neutral mode. -/
def scanString (l : List Nat) : Except PyErr (List Nat × List Nat) :=
  scanCore none l

/-- json.loads applied to a payload expected to be a quoted string literal:
surrounding whitespace is tolerated, trailing non-whitespace is Extra data. -/
def json_loads_string (p : List Nat) : Except PyErr (List Nat) :=
  match p.dropWhile is_whitespace with
  | 0x22 :: rest =>
    match scanString rest with
    | .ok (sv, after) =>
      if after.dropWhile is_whitespace = [] then .ok sv
      else .error .jsonDecodeError
    | .error e => .error e
  | _ => .error .jsonDecodeError

/-- Digit test. -/
def isDigit (c : Nat) : Bool := decide (0x30 ≤ c ∧ c ≤ 0x39)

/-- Numeric value of a nonempty digit string. -/
def digitsVal (l : List Nat) : Nat :=
  l.foldl (fun a c => a * 10 + (c - 0x30)) 0

/-- Valid JSON integer text over the atomic alphabet (no sign is reachable):
nonempty, all digits, no leading zero except the single digit 0. -/
def validIntText (l : List Nat) : Bool :=
  !l.isEmpty && l.all isDigit && (l.head? ≠ some 0x30 || l.length == 1)

/-- json.loads applied to an atomic payload (built only from the characters
0-9truefalsenull): the literals true/false/null, a JSON integer, or an
integer with a bare lowercase-e exponent (a Python float, kept as its raw
text); everything else raises JSONDecodeError. -/
def json_loads_atomic (p : List Nat) : Except PyErr JsonVal :=
  if p = str2cp "true" then .ok (.bool true)
  else if p = str2cp "false" then .ok (.bool false)
  else if p = str2cp "null" then .ok .null
  else if validIntText p then .ok (.int (digitsVal p))
  else
    match p.findIdx? (fun c => c == 0x65) with
    | some i =>
      let a := p.take i
      let b := p.drop (i + 1)
      if validIntText a && !b.isEmpty && b.all isDigit then .ok (.pyFloat p)
      else .error .jsonDecodeError
    | none => .error .jsonDecodeError

/-- Lowercase hex digit character for a value below 16. -/
def hexDigit (n : Nat) : Nat := if n < 10 then 0x30 + n else 0x57 + n

/-- The backslash-u escape text json.dumps emits for a code unit. -/
def uEscape (n : Nat) : List Nat :=
  [0x5C, 0x75, hexDigit (n / 4096 % 16), hexDigit (n / 256 % 16),
   hexDigit (n / 16 % 16), hexDigit (n % 16)]

/-- json.dumps encoding of one character (default ensure_ascii mode). -/
def jsonDumpsChar (c : Nat) : List Nat :=
  if c = 0x22 then [0x5C, 0x22]
  else if c = 0x5C then [0x5C, 0x5C]
  else if c = 0x08 then [0x5C, 0x62]
  else if c = 0x09 then [0x5C, 0x74]
  else if c = 0x0A then [0x5C, 0x6E]
  else if c = 0x0C then [0x5C, 0x66]
  else if c = 0x0D then [0x5C, 0x72]
  else if c < 0x20 then uEscape c
  else if c < 0x7F then [c]
  else if c ≤ 0xFFFF then uEscape c
  else uEscape (0xD800 + (c - 0x10000) / 1024) ++ uEscape (0xDC00 + (c - 0x10000) % 1024)

/-- json.dumps of a string (quotes plus escaped characters). -/
def jsonDumps (s : List Nat) : List Nat :=
  0x22 :: (s.map jsonDumpsChar).flatten ++ [0x22]

/-- First character of the identifier-like class 0-9a-zA-Z-_ that
calculate_current_index_key tests with re.match. -/
def idFirstClass (c : Nat) : Bool :=
  decide ((0x30 ≤ c ∧ c ≤ 0x39) ∨ (0x61 ≤ c ∧ c ≤ 0x7A) ∨
    (0x41 ≤ c ∧ c ≤ 0x5A) ∨ c = 0x2D ∨ c = 0x5F)

/-- Key rendering in calculate_current_index_key: bare when the first
character is identifier-like, otherwise the json.dumps re-encoding. -/
def keyRepr (k : List Nat) : List Nat :=
  match k with
  | [] => jsonDumps []
  | c :: _ => if idFirstClass c then k else jsonDumps k

/-- Decimal text of a Nat. -/
def natRepr (n : Nat) : List Nat := (Nat.toDigits 10 n).map Char.toNat

/-- Python str() of an int. -/
def intRepr (i : Int) : List Nat :=
  match i with
  | .ofNat n => natRepr n
  | .negSucc n => 0x2D :: natRepr (n + 1)

/-- The while loop of calculate_current_index_key: walks the stack from the
front, pairing each container marker with the element after it, asserting an
int after an array marker and a str after an object marker; popping past the
end of the list is an IndexError. Elements that match no case are skipped. -/
def calcWalk : List PyVal → Except PyErr (List (List Nat))
  | [] => .ok []
  | .int _ :: rest => calcWalk rest
  | .str s :: rest =>
    if s = [0x5B] then
      match rest with
      | [] => .error .indexError
      | .int n :: rest2 =>
        match calcWalk rest2 with
        | .ok r => .ok (intRepr n :: r)
        | .error e => .error e
      | .str _ :: _ => .error .assertionError
    else if s = [0x7B] then
      match rest with
      | [] => .error .indexError
      | .str key :: rest2 =>
        match calcWalk rest2 with
        | .ok r => .ok (keyRepr key :: r)
        | .error e => .error e
      | .int _ :: _ => .error .assertionError
    else calcWalk rest

/-- calculate_current_index_key: the walked segments joined with dots. -/
def calculate_current_index_key (stack : List PyVal) : Except PyErr (List Nat) :=
  match calcWalk stack with
  | .ok parts => .ok (List.intercalate [0x2E] parts)
  | .error e => .error e

/-- The whole mutable state of a StreamJsonParser instance. The
payload_string_remains field holds the remains buffer of the inner
StreamJsonStringParser, none when that field is Python None. -/
structure PState where
  state : ParserState
  stack : List PyVal
  toyield : List Event
  payload : List Nat
  payload_string_remains : Option (List Nat)
  started : Bool
  deriving DecidableEq, Repr

/-- is_current_data_finished. -/
def is_current_data_finished (s : PState) : Bool :=
  s.started && s.stack.isEmpty

/-- The PAIRS lookup for a closing bracket. -/
def pairOf (c : Nat) : PyVal :=
  if c = 0x7D then .str [0x7B] else .str [0x5B]

/-- _handle_brackets. On a close with a nonempty remaining stack the reserved
slot is popped and asserted to not be a container marker. -/
def handle_brackets (s : PState) (c : Nat) : PState × Option PyErr :=
  if c = 0x7B ∨ c = 0x5B then
    ({s with stack := s.stack ++ [.str [c]]}, none)
  else if c = 0x7D ∨ c = 0x5D then
    match s.stack.getLast? with
    | none => ({s with state := .INVALID}, some .runtimeStackEmpty)
    | some pair =>
      let s1 := {s with stack := s.stack.dropLast}
      if pair ≠ pairOf c then
        ({s1 with state := .INVALID}, some .runtimeBracketMismatch)
      else
        match s1.stack.getLast? with
        | none => (s1, none)
        | some slot =>
          let s2 := {s1 with stack := s1.stack.dropLast}
          if slot = .str [0x7B] ∨ slot = .str [0x5B] then
            (s2, some .assertionError)
          else (s2, none)
  else (s, none)

/-- _handle_inside_object_value. -/
def handle_inside_object_value (s : PState) (c : Nat) : PState × Option PyErr :=
  if c = 0x22 then
    ({s with payload := [0x22], state := .STRING_VALUE}, none)
  else if is_atomic_value_char c then
    ({s with payload := s.payload ++ [c], state := .ATOMIC_VALUE}, none)
  else
    ({s with state := .INVALID}, some .runtimeUnrecognized)

/-- Is the option a str value (isinstance(x, str) on the optional top). -/
def isStrVal : Option PyVal → Bool
  | some (.str _) => true
  | _ => false

/-- Python stack[-2]. -/
def stackSnd (st : List PyVal) : Option PyVal := st.dropLast.getLast?

/-- feed_char_outside. Brackets and whitespace return before started is set;
every other character sets started before further dispatch. -/
def feed_char_outside (s : PState) (c : Nat) : PState × Option PyErr :=
  let current_top := s.stack.getLast?
  if c = 0x7B ∨ c = 0x7D ∨ c = 0x5B ∨ c = 0x5D then handle_brackets s c
  else if is_whitespace c then (s, none)
  else
    let s1 := {s with started := true}
    if c = 0x2C ∧ (current_top = some (.str [0x7B]) ∨ current_top = some (.str [0x5B])) then
      (s1, none)
    else if c = 0x3A ∧ isStrVal current_top = true ∧ s.stack.length ≥ 2 ∧
        stackSnd s.stack = some (.str [0x7B]) then
      (s1, none)
    else if current_top = some (.str [0x7B]) ∧ c = 0x22 then
      ({s1 with payload := s1.payload ++ [0x22], state := .KEY}, none)
    else if current_top = some (.str [0x5B]) then
      if c = 0x22 then
        ({s1 with stack := s1.stack ++ [.int 0], payload := [0x22],
                  state := .STRING_VALUE}, none)
      else if is_atomic_value_char c then
        ({s1 with stack := s1.stack ++ [.int 0], payload := [c],
                  state := .ATOMIC_VALUE}, none)
      else ({s1 with state := .INVALID}, some .runtimeUnrecognized)
    else if s.stack.length ≥ 2 ∧ stackSnd s.stack = some (.str [0x7B]) ∧
        isStrVal current_top = true then
      handle_inside_object_value s1 c
    else ({s1 with state := .INVALID}, some .runtimeUnrecognized)

/-- Count of trailing backslashes of the payload (len minus len after
rstrip). -/
def trailingBackslashes (l : List Nat) : Nat :=
  (l.reverse.takeWhile (fun c => c == 0x5C)).length

/-- feed_char_key. The leading assert demands a payload beginning with a
quote; an unescaped closing quote decodes the accumulated text with
json.loads and pushes the key (a decode failure leaves payload and state
untouched). -/
def feed_char_key (s : PState) (c : Nat) : PState × Option PyErr :=
  if s.payload.head? ≠ some 0x22 then (s, some .assertionError)
  else if c = 0x22 ∧ trailingBackslashes s.payload % 2 = 0 then
    match json_loads_string (s.payload ++ [0x22]) with
    | .error e => (s, some e)
    | .ok key =>
      ({s with stack := s.stack ++ [.str key], payload := [],
               state := .OUTSIDE}, none)
  else ({s with payload := s.payload ++ [c]}, none)

/-- feed_char_atomic_value. The index key is computed on every call before
anything else; a terminating character decodes the payload, emits the Value,
pops the reserved slot and re-feeds the character, which at that point
dispatches to feed_char_outside because the state was just set to OUTSIDE. -/
def feed_char_atomic_value (s : PState) (c : Nat) : PState × Option PyErr :=
  match calculate_current_index_key s.stack with
  | .error e => (s, some e)
  | .ok index_key =>
    if is_atomic_value_char c then
      ({s with payload := s.payload ++ [c]}, none)
    else
      match json_loads_atomic s.payload with
      | .error e => (s, some e)
      | .ok v =>
        let s1 := {s with payload := [],
                          toyield := s.toyield ++ [Event.value index_key v]}
        match s1.stack with
        | [] => (s1, some .indexError)
        | _ :: _ =>
          feed_char_outside
            {s1 with stack := s1.stack.dropLast, state := ParserState.OUTSIDE} c

/-- feed_char_string_value. The character is pushed into the inner string
parser (created on demand) and onto the raw payload; the index key is then
computed and one get_escaped_char step taken. A decoded character emits a
ValuePiece; the string-ended signal decodes the whole raw payload with
json.loads and emits the final Value (a decode failure leaves the state in
STRING_VALUE with nothing reset). -/
def feed_char_string_value (s : PState) (c : Nat) : PState × Option PyErr :=
  let remains0 := s.payload_string_remains.getD [] ++ [c]
  let s1 := {s with payload_string_remains := some remains0,
                    payload := s.payload ++ [c]}
  match calculate_current_index_key s1.stack with
  | .error e => (s1, some e)
  | .ok index_key =>
    match get_escaped_char remains0 with
    | .error e => (s1, some e)
    | .ok (.decoded ch, remains1) =>
      ({s1 with payload_string_remains := some remains1,
                toyield := s1.toyield ++ [.valuePiece index_key ch]}, none)
    | .ok (.needMore, remains1) =>
      ({s1 with payload_string_remains := some remains1}, none)
    | .ok (.stringEnded, remains1) =>
      let s2 := {s1 with payload_string_remains := some remains1}
      match json_loads_string s2.payload with
      | .error e => (s2, some e)
      | .ok sv =>
        let s3 := {s2 with
          toyield := s2.toyield ++ [Event.value index_key (JsonVal.str sv)]}
        match s3.stack with
        | [] => (s3, some .indexError)
        | _ :: _ =>
          ({s3 with stack := s3.stack.dropLast, state := ParserState.OUTSIDE,
                    payload_string_remains := none, payload := []}, none)

/-- feed_char: dispatch on the current state; the INVALID state raises and
mutates nothing. -/
def feed_char (s : PState) (c : Nat) : PState × Option PyErr :=
  match s.state with
  | .OUTSIDE => feed_char_outside s c
  | .KEY => feed_char_key s c
  | .STRING_VALUE => feed_char_string_value s c
  | .ATOMIC_VALUE => feed_char_atomic_value s c
  | .INVALID => (s, some .runtimeInvalidState)

/-- feed_string: feed_char on every character in order, stopping at the first
raised exception. -/
def feed_string (s : PState) (cs : List Nat) : PState × Option PyErr :=
  match cs with
  | [] => (s, none)
  | c :: rest =>
    match feed_char s c with
    | (s1, none) => feed_string s1 rest
    | (s1, some e) => (s1, some e)

/-- A freshly constructed StreamJsonParser. -/
def initState : PState :=
  { state := .OUTSIDE, stack := [], toyield := [], payload := [],
    payload_string_remains := none, started := false }

/-- Feed a document given as a Lean string literal to a fresh parser. -/
def runDoc (doc : String) : PState × Option PyErr :=
  feed_string initState (str2cp doc)

/-- Tokens generating the interior of a JSON string literal, used to state
the amended string-reassembly property. -/
inductive StrTok
  | plain (c : Nat)
  | esc (e : Nat)
  | uni (a b c d : Nat)
  deriving DecidableEq, Repr

/-- Raw source characters of a token. -/
def StrTok.render : StrTok → List Nat
  | .plain c => [c]
  | .esc e => [0x5C, e]
  | .uni a b c d => [0x5C, 0x75, a, b, c, d]

/-- The character a token decodes to; on the tokens admitted by StrTok.wfb
the streaming decoder and json.loads agree on this character. -/
def StrTok.decodeTok : StrTok → Nat
  | .plain c => c
  | .esc e =>
    if e = 0x6E then 0x0A else if e = 0x74 then 0x09
    else if e = 0x72 then 0x0D else e
  | .uni a b c d => hexVal4 a b c d

/-- Well-formedness: a plain character is neither quote nor backslash and not
a control character; a two-character escape is one of backslash n, t, r,
backslash, quote; a backslash-u escape has four hex digits and decodes
outside the surrogate range D800-DFFF. -/
def StrTok.wfb : StrTok → Bool
  | .plain c => decide (c ≠ 0x22 ∧ c ≠ 0x5C ∧ 0x20 ≤ c)
  | .esc e => decide (e = 0x6E ∨ e = 0x74 ∨ e = 0x72 ∨ e = 0x5C ∨ e = 0x22)
  | .uni a b c d =>
    isHex a && isHex b && isHex c && isHex d &&
      decide (hexVal4 a b c d < 0xD800 ∨ 0xDFFF < hexVal4 a b c d)

/-- Concatenated rendering of a token list. -/
def renderToks : List StrTok → List Nat
  | [] => []
  | t :: ts => t.render ++ renderToks ts

/-! ### Shared helper lemmas -/

lemma feed_string_cons (s : PState) (c : Nat) (rest : List Nat) :
    feed_string s (c :: rest) =
      match feed_char s c with
      | (s1, none) => feed_string s1 rest
      | (s1, some e) => (s1, some e) := rfl

lemma feed_string_append (s : PState) (a b : List Nat)
    (h : (feed_string s a).2 = none) :
    feed_string s (a ++ b) = feed_string (feed_string s a).1 b := by
  induction a generalizing s with
  | nil => simp [feed_string]
  | cons c rest ih =>
    cases hfc : feed_char s c with
    | mk s1 e =>
      cases e with
      | none =>
        have h2 : (feed_string s1 rest).2 = none := by
          rw [feed_string_cons, hfc] at h
          exact h
        have e3 : feed_string s (c :: (rest ++ b)) = feed_string s1 (rest ++ b) := by
          rw [feed_string_cons, hfc]
        have e4 : feed_string s (c :: rest) = feed_string s1 rest := by
          rw [feed_string_cons, hfc]
        rw [List.cons_append, e3, e4]
        exact ih s1 h2
      | some err =>
        rw [feed_string_cons, hfc] at h
        simp at h

lemma handle_brackets_started (s : PState) (c : Nat) :
    ((handle_brackets s c).1).started = s.started := by
  simp only [handle_brackets]
  repeat' split
  all_goals rfl

lemma scanCore_quote (rest : List Nat) :
    scanCore none (0x22 :: rest) = .ok ([], rest) := by
  rw [scanCore.eq_def]
  simp

lemma scanCore_plainStep (c : Nat) (rest : List Nat) (hq : c ≠ 0x22)
    (hb : c ≠ 0x5C) (hlt : ¬c < 0x20) :
    scanCore none (c :: rest) = consScan c (scanCore none rest) := by
  rw [scanCore.eq_def]
  simp only [if_neg hq, if_neg hb, if_neg hlt]

lemma scanCore_escStep (e v : Nat) (rest2 : List Nat) (hu : e ≠ 0x75)
    (hv : jsonSimpleEsc e = some v) :
    scanCore none (0x5C :: e :: rest2) = consScan v (scanCore none rest2) := by
  rw [scanCore.eq_def]
  simp [hu, hv]

lemma scanCore_uniStep (a b c d : Nat) (rest3 : List Nat)
    (ha : isHex a = true) (hb : isHex b = true) (hc : isHex c = true)
    (hd : isHex d = true)
    (hns : ¬(0xD800 ≤ hexVal4 a b c d ∧ hexVal4 a b c d ≤ 0xDBFF)) :
    scanCore none (0x5C :: 0x75 :: a :: b :: c :: d :: rest3) =
      consScan (hexVal4 a b c d) (scanCore none rest3) := by
  rw [scanCore.eq_def]
  simp [ha, hb, hc, hd, hns]

lemma scan_renderToks (ts : List StrTok) (tail : List Nat)
    (hwf : ts.all StrTok.wfb = true) :
    scanCore none (renderToks ts ++ 0x22 :: tail) =
      .ok (ts.map StrTok.decodeTok, tail) := by
  induction ts with
  | nil => simpa [renderToks] using scanCore_quote tail
  | cons t ts2 ih =>
    rw [List.all_cons, Bool.and_eq_true] at hwf
    obtain ⟨hwt, hwts⟩ := hwf
    have ih2 := ih hwts
    cases t with
    | plain c =>
      simp only [StrTok.wfb, decide_eq_true_eq] at hwt
      obtain ⟨hq, hb, hge⟩ := hwt
      have hlt : ¬c < 0x20 := by omega
      rw [renderToks]
      simp only [StrTok.render, List.cons_append, List.nil_append,
        List.append_assoc]
      rw [scanCore_plainStep c _ hq hb hlt, ih2]
      simp [consScan, StrTok.decodeTok]
    | esc e =>
      simp only [StrTok.wfb, decide_eq_true_eq] at hwt
      rcases hwt with rfl | rfl | rfl | rfl | rfl <;>
      · rw [renderToks]
        simp only [StrTok.render, List.cons_append, List.nil_append,
          List.append_assoc]
        rw [scanCore_escStep _ _ _ (by decide) (by rfl), ih2]
        simp [consScan, StrTok.decodeTok]
    | uni a b c d =>
      simp only [StrTok.wfb, Bool.and_eq_true, decide_eq_true_eq] at hwt
      obtain ⟨⟨⟨⟨ha, hb2⟩, hc2⟩, hd2⟩, hrange⟩ := hwt
      have hns : ¬(0xD800 ≤ hexVal4 a b c d ∧ hexVal4 a b c d ≤ 0xDBFF) := by
        omega
      rw [renderToks]
      simp only [StrTok.render, List.cons_append, List.nil_append,
        List.append_assoc]
      rw [scanCore_uniStep a b c d _ ha hb2 hc2 hd2 hns, ih2]
      simp [consScan, StrTok.decodeTok]

lemma sv_feed_tok (s : PState) (t : StrTok) (ik : List Nat)
    (hst : s.state = ParserState.STRING_VALUE)
    (hpsp : s.payload_string_remains.getD [] = [])
    (hik : calculate_current_index_key s.stack = .ok ik)
    (hwf : t.wfb = true) :
    feed_string s t.render =
      ({s with payload := s.payload ++ t.render,
               payload_string_remains := some [],
               toyield := s.toyield ++ [Event.valuePiece ik t.decodeTok]},
        none) := by
  cases t with
  | plain c =>
    simp only [StrTok.wfb, decide_eq_true_eq] at hwf
    obtain ⟨hq, hb, hge⟩ := hwf
    simp [StrTok.render, StrTok.decodeTok, feed_string, feed_char, hst,
      feed_char_string_value, hpsp, hik, get_escaped_char, escMatchDecode,
      hq, hb]
  | esc e =>
    simp only [StrTok.wfb, decide_eq_true_eq] at hwf
    rcases hwf with rfl | rfl | rfl | rfl | rfl <;>
      simp [StrTok.render, StrTok.decodeTok, feed_string, feed_char, hst,
        feed_char_string_value, hpsp, hik, get_escaped_char, escMatchDecode,
        List.append_assoc]
  | uni a b c d =>
    simp only [StrTok.wfb, Bool.and_eq_true, decide_eq_true_eq] at hwf
    obtain ⟨⟨⟨⟨ha, hb2⟩, hc2⟩, hd2⟩, hrange⟩ := hwf
    simp [StrTok.render, StrTok.decodeTok, feed_string, feed_char, hst,
      feed_char_string_value, hpsp, hik, get_escaped_char, escMatchDecode,
      ha, hb2, hc2, hd2, List.append_assoc]

lemma sv_feed_toks (ts : List StrTok) (ik : List Nat) :
    ∀ s : PState, ts.all StrTok.wfb = true →
      s.state = ParserState.STRING_VALUE →
      s.payload_string_remains = some [] →
      calculate_current_index_key s.stack = .ok ik →
      feed_string s (renderToks ts) =
        ({s with payload := s.payload ++ renderToks ts,
                 payload_string_remains := some [],
                 toyield := s.toyield ++
                   (ts.map StrTok.decodeTok).map (Event.valuePiece ik)},
          none) := by
  induction ts with
  | nil =>
    intro s hwf hst hpsp hik
    cases s
    simp_all [feed_string, renderToks]
  | cons t ts2 ih =>
    intro s hwf hst hpsp hik
    rw [List.all_cons, Bool.and_eq_true] at hwf
    obtain ⟨hwt, hwts⟩ := hwf
    have h1 := sv_feed_tok s t ik hst (by rw [hpsp]; rfl) hik hwt
    have happ := feed_string_append s t.render (renderToks ts2) (by rw [h1])
    have hih := ih {s with payload := s.payload ++ t.render,
                           payload_string_remains := some [],
                           toyield := s.toyield ++
                             [Event.valuePiece ik t.decodeTok]}
      hwts hst rfl hik
    rw [show renderToks (t :: ts2) = t.render ++ renderToks ts2 from rfl,
      happ, h1]
    dsimp only
    rw [hih]
    simp [renderToks, List.append_assoc]

lemma sv_close (s : PState) (ik dec body : List Nat)
    (hst : s.state = ParserState.STRING_VALUE)
    (hpsp : s.payload_string_remains.getD [] = [])
    (hik : calculate_current_index_key s.stack = .ok ik)
    (hpl : s.payload = 0x22 :: body)
    (hscan : scanCore none (body ++ [0x22]) = .ok (dec, []))
    (hstk : s.stack ≠ []) :
    feed_char s 0x22 =
      ({s with payload := [], payload_string_remains := none,
               state := ParserState.OUTSIDE, stack := s.stack.dropLast,
               toyield := s.toyield ++ [Event.value ik (JsonVal.str dec)]},
        none) := by
  have hdisp : feed_char s 0x22 = feed_char_string_value s 0x22 := by
    simp [feed_char, hst]
  obtain ⟨hd, tl, hcons⟩ := List.exists_cons_of_ne_nil hstk
  have hload : json_loads_string (s.payload ++ [0x22]) = .ok dec := by
    rw [hpl]
    show json_loads_string (0x22 :: (body ++ [0x22])) = .ok dec
    simp [json_loads_string, List.dropWhile, is_whitespace, scanString, hscan]
  rw [hdisp]
  simp only [feed_char_string_value, hpsp, hik, List.nil_append]
  have hget : get_escaped_char [0x22] = .ok (.stringEnded, [0x22]) := rfl
  simp only [hget, hload, hcons]

/-! ### Claim theorems -/

/-- C1: the claim says array indices start at 0 and are incremented as
values complete, so the example document should end with a Value at path
pref.1. The code pushes index 0 for every array element and never increments
it: running the example document emits the fourth Value at path pref.0
again, contradicting the claim (and the example in the module docstring). -/
theorem c1_array_index_never_incremented :
    runDoc "\x7b\"name\":\"x\",\"age\":1,\"pref\":[\"a\",\"b\"]\x7d" =
      ({ state := ParserState.OUTSIDE, stack := [],
         toyield := [Event.valuePiece (str2cp "name") 0x78,
                     Event.value (str2cp "name") (JsonVal.str (str2cp "x")),
                     Event.value (str2cp "age") (JsonVal.int 1),
                     Event.valuePiece (str2cp "pref.0") 0x61,
                     Event.value (str2cp "pref.0") (JsonVal.str (str2cp "a")),
                     Event.valuePiece (str2cp "pref.0") 0x62,
                     Event.value (str2cp "pref.0") (JsonVal.str (str2cp "b"))],
         payload := [], payload_string_remains := none, started := true },
       none) := by
  decide

/-- C2: the claim says the scalar 2 in the nested document is emitted with
path a.1.b. Instead the parser never emits it: a container opened inside an
array gets no index slot on the stack, so when the atomic value 2 terminates,
calculate_current_index_key meets the inner object marker where it asserts an
integer index and raises AssertionError; only Value a.0 = 1 was emitted. -/
theorem c2_nested_array_object_assertion :
    runDoc "\x7b\"a\":[1,\x7b\"b\":2\x7d]\x7d" =
      ({ state := ParserState.ATOMIC_VALUE,
         stack := [PyVal.str [0x7B], PyVal.str (str2cp "a"), PyVal.str [0x5B],
                   PyVal.str [0x7B], PyVal.str (str2cp "b")],
         toyield := [Event.value (str2cp "a.0") (JsonVal.int 1)],
         payload := [0x32], payload_string_remains := none, started := true },
       some PyErr.assertionError) := by
  decide

/-- C4: the claim says no input data can make the internal slot assertions
fire. Plain inputs do: closing the inner array of the document consisting of
an array directly inside an array makes _handle_brackets pop the outer array
marker as the reserved slot and its assertion raises; and feeding an atomic
value inside a directly nested array makes calculate_current_index_key meet a
container marker where it asserts an integer index and raises. -/
theorem c4_slot_assertions_fire_on_input :
    runDoc "[[]]" = (initState, some PyErr.assertionError) ∧
    runDoc "[[1]" =
      ({ state := ParserState.ATOMIC_VALUE,
         stack := [PyVal.str [0x5B], PyVal.str [0x5B], PyVal.int 0],
         toyield := [], payload := [0x31], payload_string_remains := none,
         started := true },
       some PyErr.assertionError) := by
  constructor
  · decide
  · decide

/-- C3 counterexample: for the document holding the surrogate-pair escape of
U+1D11E, the two ValuePiece events carry the code units D834 and DD1E while
the final Value carries the single combined code point 1D11E, so the
concatenation of the piece characters differs from the Value string. -/
theorem c3_surrogate_pair_counterexample :
    runDoc "[\"\\uD834\\uDD1E\"]" =
      ({ state := ParserState.OUTSIDE, stack := [],
         toyield := [Event.valuePiece [0x30] 0xD834,
                     Event.valuePiece [0x30] 0xDD1E,
                     Event.value [0x30] (JsonVal.str [0x1D11E])],
         payload := [], payload_string_remains := none, started := true },
       none) ∧
    [0xD834, 0xDD1E] ≠ [0x1D11E] := by
  constructor
  · decide
  · decide

/-- C3 amended: from the state reached just after a string value opening
quote (STRING_VALUE state, payload holding only the quote, no decoder
buffer, a nonempty stack whose path computation succeeds), feeding the
rendering of any list of well-formed tokens — unescaped characters at or
above 0x20 other than quote and backslash, the escapes backslash n, t, r,
backslash, quote, and backslash-u escapes whose value is outside the
surrogate range — followed by the closing quote emits one ValuePiece per
token in order followed by the final Value whose string is exactly the list
of those piece characters; the feed is per character, so every chunking
yields this same event sequence. -/
theorem c3_string_reassembly_amended (s : PState) (ts : List StrTok)
    (ik : List Nat)
    (hst : s.state = ParserState.STRING_VALUE)
    (hpsp : s.payload_string_remains = none)
    (hpl : s.payload = [0x22])
    (hik : calculate_current_index_key s.stack = .ok ik)
    (hstk : s.stack ≠ [])
    (hwf : ts.all StrTok.wfb = true) :
    feed_string s (renderToks ts ++ [0x22]) =
      ({s with payload := [], payload_string_remains := none,
               state := ParserState.OUTSIDE, stack := s.stack.dropLast,
               toyield := s.toyield
                 ++ (ts.map StrTok.decodeTok).map (Event.valuePiece ik)
                 ++ [Event.value ik (JsonVal.str (ts.map StrTok.decodeTok))]},
        none) := by
  cases ts with
  | nil =>
    have hclose := sv_close s ik [] [] hst (by rw [hpsp]; rfl) hik hpl
      (scan_renderToks [] [] (by rfl)) hstk
    show feed_string s [0x22] = _
    rw [feed_string_cons, hclose]
    simp [feed_string]
  | cons t ts2 =>
    have hwf2 := hwf
    rw [List.all_cons, Bool.and_eq_true] at hwf2
    obtain ⟨hwt, hwts⟩ := hwf2
    have h1 := sv_feed_tok s t ik hst (by rw [hpsp]; rfl) hik hwt
    have htoks := sv_feed_toks ts2 ik
      {s with payload := s.payload ++ t.render,
              payload_string_remains := some [],
              toyield := s.toyield ++ [Event.valuePiece ik t.decodeTok]}
      hwts hst rfl hik
    have hclose := sv_close
      {s with payload := (s.payload ++ t.render) ++ renderToks ts2,
              payload_string_remains := some [],
              toyield := (s.toyield ++ [Event.valuePiece ik t.decodeTok]) ++
                (ts2.map StrTok.decodeTok).map (Event.valuePiece ik)}
      ik ((t :: ts2).map StrTok.decodeTok) (t.render ++ renderToks ts2)
      hst rfl hik (by rw [hpl]; rfl) (scan_renderToks (t :: ts2) [] hwf) hstk
    rw [show renderToks (t :: ts2) ++ [0x22] =
        t.render ++ (renderToks ts2 ++ [0x22]) from by
      simp [renderToks, List.append_assoc]]
    rw [feed_string_append s t.render (renderToks ts2 ++ [0x22]) (by rw [h1]),
      h1]
    dsimp only
    rw [feed_string_append _ (renderToks ts2) [0x22] (by rw [htoks]), htoks]
    dsimp only
    rw [feed_string_cons, hclose]
    simp [feed_string, List.append_assoc]

theorem c3_string_reassembly_witness :
    feed_string
      { state := ParserState.STRING_VALUE, stack := [PyVal.str [0x5B], PyVal.int 0],
        toyield := [], payload := [0x22], payload_string_remains := none,
        started := true }
      (renderToks [StrTok.plain 0x61, StrTok.esc 0x6E,
        StrTok.uni 0x30 0x30 0x65 0x39] ++ [0x22]) =
      ({ state := ParserState.OUTSIDE, stack := [PyVal.str [0x5B]],
         toyield := [Event.valuePiece [0x30] 0x61, Event.valuePiece [0x30] 0x0A,
                     Event.valuePiece [0x30] 0xE9,
                     Event.value [0x30] (JsonVal.str [0x61, 0x0A, 0xE9])],
         payload := [], payload_string_remains := none, started := true },
        none) := by
  have h := c3_string_reassembly_amended
    { state := ParserState.STRING_VALUE, stack := [PyVal.str [0x5B], PyVal.int 0],
      toyield := [], payload := [0x22], payload_string_remains := none,
      started := true }
    [StrTok.plain 0x61, StrTok.esc 0x6E, StrTok.uni 0x30 0x30 0x65 0x39]
    [0x30] rfl rfl rfl (by rfl) (by simp) (by rfl)
  simpa using h

/-- C5 counterexample: after feeding the complete document consisting of an
empty object, is_current_data_finished is still false (no error occurred),
contradicting the claim that it returns true after the final closing bracket
of every complete document including the empty object. -/
theorem c5_empty_object_counterexample :
    (runDoc "\x7b\x7d").2 = none ∧
    is_current_data_finished (runDoc "\x7b\x7d").1 = false := by
  constructor
  · decide
  · decide

/-- C6 counterexample: a buffer holding a backslash-U escape with value
FFFFFFFF makes get_escaped_char raise UnicodeDecodeError (codecs.decode
rejects code points above 10FFFF), contradicting the claim that the decoder
never raises for any choice of hex digits. -/
theorem c6_big_unicode_escape_counterexample :
    get_escaped_char (str2cp "\\UFFFFFFFF") = .error PyErr.unicodeDecodeError := by
  rfl

/-- C9 counterexample: feeding the text open-bracket 1 t comma and then the
text 2 leaves a different state than feeding their concatenation: the comma
triggers json.loads on the malformed atomic payload 1t, which raises while
leaving the state ATOMIC_VALUE rather than INVALID, so the separately fed 2
is appended to the payload, whereas the concatenated feed stops at the comma
and never processes the 2. -/
theorem c9_chunk_counterexample :
    (feed_string (feed_string initState (str2cp "[1t,")).1 (str2cp "2")).1 ≠
      (feed_string initState (str2cp "[1t,2")).1 := by
  decide

lemma escMatchDecode_error {l : List Nat} {e : PyErr} {r : List Nat}
    (h : escMatchDecode l = some (.error e, r)) :
    e = PyErr.unicodeDecodeError ∧
    ∃ a b c d a2 b2 c2 d2,
      l = 0x5C :: 0x55 :: a :: b :: c :: d :: a2 :: b2 :: c2 :: d2 :: r ∧
      0x10FFFF < hexVal4 a b c d * 65536 + hexVal4 a2 b2 c2 d2 := by
  match l with
  | [] => simp [escMatchDecode] at h
  | [c0] => simp [escMatchDecode] at h
  | c0 :: c1 :: rest =>
    by_cases hc0 : c0 = 0x5C
    case neg => simp [escMatchDecode, hc0] at h
    subst hc0
    by_cases hn : c1 = 0x6E
    · subst hn; simp [escMatchDecode] at h
    by_cases ht : c1 = 0x74
    · subst ht; simp [escMatchDecode] at h
    by_cases hr2 : c1 = 0x72
    · subst hr2; simp [escMatchDecode] at h
    by_cases hb2 : c1 = 0x5C
    · subst hb2; simp [escMatchDecode] at h
    by_cases hq : c1 = 0x22
    · subst hq; simp [escMatchDecode] at h
    by_cases hx : c1 = 0x78
    · subst hx
      simp only [escMatchDecode] at h
      norm_num at h
      split at h
      all_goals ((try split at h) <;> simp at h)
    by_cases hu : c1 = 0x75
    · subst hu
      simp only [escMatchDecode] at h
      norm_num at h
      split at h
      all_goals ((try split at h) <;> simp at h)
    by_cases hU : c1 = 0x55
    · subst hU
      simp only [escMatchDecode] at h
      norm_num at h
      split at h
      · rename_i a b c d a2 b2 c2 d2 r2
        split at h
        · split at h
          · simp at h
          · rename_i hv
            simp only [Option.some.injEq, Prod.mk.injEq, Except.error.injEq] at h
            obtain ⟨he, hrr⟩ := h
            subst hrr
            exact ⟨he.symm, a, b, c, d, a2, b2, c2, d2, rfl, by omega⟩
        · simp at h
      · simp at h
    · simp [escMatchDecode, hn, ht, hr2, hb2, hq, hx, hu, hU] at h

/-- C6 amended: get_escaped_char raises only UnicodeDecodeError and only when
the buffer begins with a full backslash-U escape of eight hex digits whose
value exceeds 10FFFF; for every other buffer (including every backslash-x and
backslash-u escape, for all hex digits) it returns a decoded character, the
string-ended signal, or need-more. -/
theorem c6_decoder_total_amended (remains : List Nat) (err : PyErr)
    (h : get_escaped_char remains = .error err) :
    err = PyErr.unicodeDecodeError ∧
    ∃ a b c d a2 b2 c2 d2 rest,
      remains = 0x5C :: 0x55 :: a :: b :: c :: d :: a2 :: b2 :: c2 :: d2 :: rest ∧
      0x10FFFF < hexVal4 a b c d * 65536 + hexVal4 a2 b2 c2 d2 := by
  cases remains with
  | nil => simp [get_escaped_char] at h
  | cons c rest =>
    simp only [get_escaped_char] at h
    split at h
    · simp at h
    · split at h
      · simp at h
      · split at h
        · simp at h
        · rename_i e0 snd heq
          simp only [Except.error.injEq] at h
          subst h
          obtain ⟨he, a, b, c', d, a2, b2, c2, d2, hl, hb⟩ :=
            escMatchDecode_error heq
          exact ⟨he, a, b, c', d, a2, b2, c2, d2, snd, hl, hb⟩
        · split at h
          · simp at h
          · split at h <;> simp at h

theorem c6_decoder_total_witness :
    PyErr.unicodeDecodeError = PyErr.unicodeDecodeError ∧
    ∃ a b c d a2 b2 c2 d2 rest,
      str2cp "\\Uffffffff" =
        0x5C :: 0x55 :: a :: b :: c :: d :: a2 :: b2 :: c2 :: d2 :: rest ∧
      0x10FFFF < hexVal4 a b c d * 65536 + hexVal4 a2 b2 c2 d2 :=
  c6_decoder_total_amended (str2cp "\\Uffffffff") PyErr.unicodeDecodeError
    (by rfl)

/-- C7: feeding a closing square bracket to a parser in the OUTSIDE state
with an empty stack yields the structural stack-empty error and moves the
state to INVALID while changing nothing else (queued events stay drainable in
their original order); and every feed in the INVALID state raises the
invalid-state error and mutates nothing at all, so no further events are ever
appended. -/
theorem c7_invalid_terminal :
    (∀ s : PState, s.state = ParserState.OUTSIDE → s.stack = [] →
      feed_char s 0x5D = ({s with state := ParserState.INVALID},
        some PyErr.runtimeStackEmpty)) ∧
    (∀ (s : PState) (c : Nat), s.state = ParserState.INVALID →
      feed_char s c = (s, some PyErr.runtimeInvalidState)) := by
  constructor
  · intro s hst hstk
    simp [feed_char, hst, feed_char_outside, handle_brackets, hstk]
  · intro s c hst
    simp [feed_char, hst]

theorem c7_invalid_terminal_witness :
    feed_char initState 0x5D =
      ({initState with state := ParserState.INVALID},
        some PyErr.runtimeStackEmpty) ∧
    feed_char {initState with state := ParserState.INVALID} 0x61 =
      ({initState with state := ParserState.INVALID},
        some PyErr.runtimeInvalidState) :=
  ⟨c7_invalid_terminal.1 initState rfl rfl,
   c7_invalid_terminal.2 {initState with state := ParserState.INVALID} 0x61 rfl⟩

/-- C8: when the decoder buffer starts with a backslash and the ESCAPED
pattern does not fully match the buffer, get_escaped_char consumes exactly
two characters and returns the second one literally when that second
character exists and is none of x, u, U, backslash, quote; in every other
such case it returns need-more and consumes nothing. -/
theorem c8_fallback_behavior (rest : List Nat)
    (h : escMatchDecode (0x5C :: rest) = none) :
    get_escaped_char (0x5C :: rest) =
      match rest with
      | [] => .ok (.needMore, [0x5C])
      | r :: rest2 =>
        if r = 0x78 ∨ r = 0x75 ∨ r = 0x55 ∨ r = 0x5C ∨ r = 0x22 then
          .ok (.needMore, 0x5C :: r :: rest2)
        else .ok (.decoded r, rest2) := by
  cases rest with
  | nil => rfl
  | cons r rest2 =>
    show (match escMatchDecode (0x5C :: r :: rest2) with
      | some (Except.ok ch, rest1) =>
        Except.ok (EscResult.decoded ch, rest1)
      | some (Except.error e, _) =>
        (Except.error e : Except PyErr (EscResult × List Nat))
      | none =>
        if r = 0x78 ∨ r = 0x75 ∨ r = 0x55 ∨ r = 0x5C ∨ r = 0x22 then
          Except.ok (EscResult.needMore, 0x5C :: r :: rest2)
        else Except.ok (EscResult.decoded r, rest2)) = _
    rw [h]

theorem c8_fallback_behavior_witness :
    escMatchDecode (0x5C :: [0x71, 0x7A]) = none ∧
    get_escaped_char (0x5C :: [0x71, 0x7A]) = .ok (.decoded 0x71, [0x7A]) := by
  refine ⟨by rfl, ?_⟩
  have h := c8_fallback_behavior [0x71, 0x7A] (by rfl)
  simpa using h

/-- C9 amended: feeding a followed by b is equivalent to feeding their
concatenation whenever feeding a raises no error; the equivalence can fail
when feeding a raises a decode error that leaves the parser in a state other
than INVALID (see the counterexample). -/
theorem c9_chunk_invariance_amended (s : PState) (a b : List Nat)
    (h : (feed_string s a).2 = none) :
    feed_string s (a ++ b) = feed_string (feed_string s a).1 b :=
  feed_string_append s a b h

theorem c9_chunk_invariance_witness :
    (feed_string initState (str2cp "[1,")).2 = none ∧
    feed_string initState (str2cp "[1," ++ str2cp "2]") =
      feed_string (feed_string initState (str2cp "[1,")).1 (str2cp "2]") :=
  ⟨by rfl,
   c9_chunk_invariance_amended initState (str2cp "[1,") (str2cp "2]") (by rfl)⟩

/-- C5 amended: is_current_data_finished returns started AND empty-stack,
where started is set only when a character other than a bracket or
whitespace is processed in the OUTSIDE state; hence it is false initially,
false after the complete documents consisting of an empty object or an empty
array (brackets never set started), false whenever a container is still open,
and true after the final closing bracket of a complete document that
contains at least one key or scalar. -/
theorem c5_completion_flag_amended :
    is_current_data_finished initState = false ∧
    ((runDoc "\x7b\x7d").2 = none ∧
      is_current_data_finished (runDoc "\x7b\x7d").1 = false) ∧
    ((runDoc "[]").2 = none ∧
      is_current_data_finished (runDoc "[]").1 = false) ∧
    ((runDoc "\x7b\"a\":1\x7d").2 = none ∧
      is_current_data_finished (runDoc "\x7b\"a\":1\x7d").1 = true) ∧
    (∀ s : PState, s.stack ≠ [] → is_current_data_finished s = false) ∧
    (∀ (s : PState) (c : Nat), s.state = ParserState.OUTSIDE →
      (c = 0x7B ∨ c = 0x7D ∨ c = 0x5B ∨ c = 0x5D ∨ is_whitespace c = true) →
      ((feed_char s c).1).started = s.started) := by
  refine ⟨by rfl, ⟨by rfl, by rfl⟩, ⟨by rfl, by rfl⟩, ⟨by rfl, by rfl⟩, ?_, ?_⟩
  · intro s hstk
    cases h : s.stack with
    | nil => exact absurd h hstk
    | cons a t => simp [is_current_data_finished, h]
  · intro s c hst hc
    have hfc : feed_char s c = feed_char_outside s c := by
      simp [feed_char, hst]
    rw [hfc]
    rcases hc with rfl | rfl | rfl | rfl | hw
    · simpa [feed_char_outside] using handle_brackets_started s 0x7B
    · simpa [feed_char_outside] using handle_brackets_started s 0x7D
    · simpa [feed_char_outside] using handle_brackets_started s 0x5B
    · simpa [feed_char_outside] using handle_brackets_started s 0x5D
    · simp [is_whitespace] at hw
      rcases hw with rfl | rfl | rfl | rfl
      all_goals simp [feed_char_outside, is_whitespace]

theorem c5_completion_flag_witness :
    is_current_data_finished
      { state := ParserState.OUTSIDE, stack := [PyVal.str [0x7B]],
        toyield := [], payload := [], payload_string_remains := none,
        started := true } = false ∧
    ((feed_char initState 0x7B).1).started = initState.started :=
  ⟨c5_completion_flag_amended.2.2.2.2.1 _ (by simp),
   c5_completion_flag_amended.2.2.2.2.2 initState 0x7B rfl (by simp)⟩

/-- C10: feeding the array document holding the string with the unrecognized
escape backslash-q, the permissive streaming decoder emits the piece q, and
the closing quote then raises JSONDecodeError from the final whole-string
json.loads while the state remains STRING_VALUE (not INVALID); a subsequent
character is still processed as string-value input, growing the raw payload
and the inner buffer and raising the same decode error again. -/
theorem c10_string_decode_exception :
    runDoc "[\"\\q\"" =
      ({ state := ParserState.STRING_VALUE,
         stack := [PyVal.str [0x5B], PyVal.int 0],
         toyield := [Event.valuePiece [0x30] 0x71],
         payload := [0x22, 0x5C, 0x71, 0x22],
         payload_string_remains := some [0x22], started := true },
       some PyErr.jsonDecodeError) ∧
    feed_char
      { state := ParserState.STRING_VALUE,
        stack := [PyVal.str [0x5B], PyVal.int 0],
        toyield := [Event.valuePiece [0x30] 0x71],
        payload := [0x22, 0x5C, 0x71, 0x22],
        payload_string_remains := some [0x22], started := true } 0x7A =
      ({ state := ParserState.STRING_VALUE,
         stack := [PyVal.str [0x5B], PyVal.int 0],
         toyield := [Event.valuePiece [0x30] 0x71],
         payload := [0x22, 0x5C, 0x71, 0x22, 0x7A],
         payload_string_remains := some [0x22, 0x7A], started := true },
       some PyErr.jsonDecodeError) := by
  constructor
  · decide
  · decide
